import Mathlib

/-!
Verification development for the schema-as-data CRUD backend prototypes.

The Python sources are shallowly embedded here:

* `MasterCRUD` models `MasterCRUD/main.py` (the primary variant): schema
  registration (`add_schema`), field replacement (`replace_schema_fields`),
  schema lookup (`get_schema_field`), document creation (`add_item`),
  per-field document update (`update_schema_item`), batch import
  (`import_data`) and filter parsing (`parse_filter_string`).
* `Mowlee` models the element-wise list check of `Github mowlee/19.py`.
* `Sharath` models `Sharath - GIT/Backend.py` (`add_item`,
  `update_schema_item`), the variant that filters dictionary values on write.

JSON-ish runtime values are modelled by `Value`; MongoDB collections are
modelled as lists of documents (`Doc`) with `find_one` as first match,
`insert_one`/`insert_many` as append, `replace_one`/`update_one` as
first-match replacement.  Timestamps (`datetime.now().strftime(...)`) are
passed in explicitly as a `now : String` argument.  Raising an
`HTTPException` is modelled by returning an error value; in the stateful
operations an error result carries the unmodified collection, mirroring the
fact that in the source every `raise` happens before the corresponding
database write (except where proven otherwise below).
-/

/-- A JSON-ish runtime value, as produced by parsing a request body or a
spreadsheet cell.  Python dictionaries are association lists in insertion
order; Python equality on such values is structural (`Value.beq`). -/
inductive Value where
  | vint (n : Int)
  | vstr (s : String)
  | vbool (b : Bool)
  | vlist (elems : List Value)
  | vdict (entries : List (String × Value))
  deriving Repr

mutual

/-- Structural equality of runtime values, modelling Python `==` on parsed
JSON data (used by the MongoDB equality queries in `find_one`). -/
def Value.beq : Value → Value → Bool
  | .vint a, .vint b => a == b
  | .vstr a, .vstr b => a == b
  | .vbool a, .vbool b => a == b
  | .vlist xs, .vlist ys => Value.beqList xs ys
  | .vdict xs, .vdict ys => Value.beqEntries xs ys
  | _, _ => false

/-- Elementwise equality of value lists. -/
def Value.beqList : List Value → List Value → Bool
  | [], [] => true
  | x :: xs, y :: ys => Value.beq x y && Value.beqList xs ys
  | _, _ => false

/-- Entrywise equality of dictionary entry lists. -/
def Value.beqEntries : List (String × Value) → List (String × Value) → Bool
  | [], [] => true
  | (k, x) :: xs, (l, y) :: ys => k == l && Value.beq x y && Value.beqEntries xs ys
  | _, _ => false

end

/-- A field declaration, modelling the `FieldModel` pydantic model
(`col_name`, `type`, `unique`, `allowed_values`, `dict_keys`).  The `type`
slot holds the type-name string stored in the schema document (for example
"str", "int", "list", "dict").  `none` models both an absent key in the raw
Mongo document and a pydantic `None`. -/
structure FieldModel where
  col_name : String
  type : String
  unique : Option Bool := none
  allowed_values : Option (List String) := none
  dict_keys : Option (List (String × String)) := none
  deriving Repr, DecidableEq

/-- A stored document: the ObjectId-like identifier assigned by the store,
plus the record payload (a Python dict, in insertion order). -/
structure Doc where
  id : Nat
  data : List (String × Value)
  deriving Repr

/-- Python truthiness of an `Optional[bool]` (`None` and `False` are falsy):
used by `if field.unique:` and `field.get("unique", False)`. -/
def uniqueT (o : Option Bool) : Bool :=
  o.getD false

/-- Python truthiness of an `Optional[List[str]]` (`None` and the empty list
are falsy): used by `if field.allowed_values:`. -/
def allowedT (o : Option (List String)) : Bool :=
  match o with
  | some l => !l.isEmpty
  | none => false

/-- Python truthiness of an `Optional[Dict[str, str]]` (`None` and the empty
dict are falsy): used by `if field.dict_keys:`. -/
def dictKeysT (o : Option (List (String × String))) : Bool :=
  match o with
  | some l => !l.isEmpty
  | none => false

/-- Dictionary lookup, `d[k]` / `d.get(k)`: the value of the first entry
with key `k`, if any (a Python dict holds each key at most once). -/
def lookupVal : List (String × Value) → String → Option Value
  | [], _ => none
  | kv :: rest, k => if kv.1 == k then some kv.2 else lookupVal rest k

/-- Dictionary lookup with default, `d.get(k, dflt)`. -/
def lookupValD (item : List (String × Value)) (k : String) (dflt : Value) : Value :=
  (lookupVal item k).getD dflt

/-- Dictionary assignment `d[k] = v`: replaces the value of an existing key
in place (keeping its position, as Python dicts do), otherwise appends the
new entry. -/
def setVal : List (String × Value) → String → Value → List (String × Value)
  | [], k, v => [(k, v)]
  | kv :: rest, k, v => if kv.1 == k then (k, v) :: rest else kv :: setVal rest k v

/-- Membership of a runtime value in a list of strings, modelling the Python
test `value in list_of_str` (elementwise `==`; a non-string value never
equals a string). -/
def valueInStrList (v : Value) (l : List String) : Bool :=
  l.any (fun s => Value.beq v (.vstr s))

/-- The MongoDB query `collection.find_one({name: v})`: the first stored
document whose field `name` equals `v`. -/
def findByField (coll : List Doc) (name : String) (v : Value) : Option Doc :=
  coll.find? (fun d =>
    match lookupVal d.data name with
    | some w => Value.beq w v
    | none => false)

/-- The MongoDB query `collection.find_one({"_id": oid})`: the first stored
document with the given identifier. -/
def findById (coll : List Doc) (oid : Nat) : Option Doc :=
  coll.find? (fun d => d.id == oid)

/-- Model of `update_one({"_id": oid}, {"$set": {name: v}})`: sets one field of the
first document with the given identifier. -/
def applySet (coll : List Doc) (oid : Nat) (name : String) (v : Value) : List Doc :=
  match coll with
  | [] => []
  | d :: ds =>
    if d.id == oid then { d with data := setVal d.data name v } :: ds
    else d :: applySet ds oid name v

/-- Validation errors raised (as `HTTPException`s) by the single-record
routes of `MasterCRUD/main.py`.  The constructors correspond to the detail
messages of the 400-responses: `uniquenessViolation c` to `"{c} must be
unique"`, `invalidValue c` to `"Invalid value for {c}"`, `invalidKey c k` to
`"Invalid key for {c}: {k}"`, `fieldNotFound c` to `"Field {c} not found in
schema"`, `missingKeys c` to `"Missing keys for {c}"`.  `keyError c` and
`attributeError c` model the uncaught Python `KeyError`/`AttributeError`
raised when a payload key is absent or a dict-kind value is not a dict
(unreachable for payloads typed by the generated pydantic model). -/
inductive ValError where
  | uniquenessViolation (col : String)
  | invalidValue (col : String)
  | invalidKey (col : String) (key : String)
  | fieldNotFound (col : String)
  | missingKeys (col : String)
  | keyError (col : String)
  | attributeError (col : String)
  | typeError (col : String)
  deriving Repr, DecidableEq

namespace MasterCRUD

/-- The uniqueness block of `add_item` (main.py lines 232-235): for a field
with truthy `unique`, query the collection for an existing document whose
field equals the candidate value; any match raises `"{col} must be
unique"`. -/
def uniqueCheck (coll : List Doc) (item : List (String × Value)) (f : FieldModel) :
    Except ValError Unit :=
  if uniqueT f.unique then
    match lookupVal item f.col_name with
    | none => .error (.keyError f.col_name)
    | some v =>
      if (findByField coll f.col_name v).isSome then
        .error (.uniquenessViolation f.col_name)
      else
        .ok ()
  else
    .ok ()

/-- The allowed-values block of `add_item` (main.py lines 237-239): for a
field with truthy `allowed_values`, the candidate value itself must be a
member of the allowed list, else `"Invalid value for {col}"`. -/
def allowedCheck (item : List (String × Value)) (f : FieldModel) :
    Except ValError Unit :=
  if allowedT f.allowed_values then
    match lookupVal item f.col_name with
    | none => .error (.keyError f.col_name)
    | some v =>
      if valueInStrList v (f.allowed_values.getD []) then
        .ok ()
      else
        .error (.invalidValue f.col_name)
  else
    .ok ()

/-- The dict-keys block of `add_item` (main.py lines 241-245): for a field
with `type == "dict"` and truthy `dict_keys`, take the candidate value with
default `{}` and raise `"Invalid key for {col}: {key}"` at the first key not
declared in `dict_keys`. -/
def dictKeysCheck (item : List (String × Value)) (f : FieldModel) :
    Except ValError Unit :=
  if f.type == "dict" && dictKeysT f.dict_keys then
    match lookupValD item f.col_name (.vdict []) with
    | .vdict entries =>
      match entries.find? (fun kv => !((f.dict_keys.getD []).any (fun dk => dk.1 == kv.1))) with
      | some kv => .error (.invalidKey f.col_name kv.1)
      | none => .ok ()
    | _ => .error (.attributeError f.col_name)
  else
    .ok ()

/-- The full per-field validation of `add_item`: uniqueness, then allowed
values, then dict keys, aborting at the first violation. -/
def checkField (coll : List Doc) (item : List (String × Value)) (f : FieldModel) :
    Except ValError Unit := do
  uniqueCheck coll item f
  allowedCheck item f
  dictKeysCheck item f

/-- The validation loop of `add_item` (`for field in
schema_definition.fields: ...`), aborting at the first violation. -/
def validateFields (fields : List FieldModel) (coll : List Doc)
    (item : List (String × Value)) : Except ValError Unit :=
  match fields with
  | [] => .ok ()
  | f :: fs => do
    checkField coll item f
    validateFields fs coll item

/-- Model of `add_item` of `MasterCRUD/main.py`: stamp `modified_date` with the
current date (overwriting any client value), validate every schema field,
and only on success insert the record.  Returns the resulting collection
together with the validation error, if any. -/
def add_item (fields : List FieldModel) (coll : List Doc)
    (item : List (String × Value)) (now : String) :
    List Doc × Option ValError :=
  let item := setVal item "modified_date" (.vstr now)
  match validateFields fields coll item with
  | .error e => (coll, some e)
  | .ok _ => (coll ++ [⟨coll.length, item⟩], none)

/-- Stage 1 of the `update_schema_item` per-field loop (main.py lines
380-382): the supplied field name must exist in the schema. -/
def updFieldExistsCheck (fields : List FieldModel) (name : String) :
    Except ValError Unit :=
  if fields.any (fun g => g.col_name == name) then .ok ()
  else .error (.fieldNotFound name)

/-- Stage 2 of the `update_schema_item` per-field loop (main.py lines
385-388): scan the schema fields; raise `"Invalid value for {name}"` at the
first field that has this name, type `"str"`, a present `allowed_values`
key, and does not list the candidate value. -/
def updStrAllowedCheck (fields : List FieldModel) (name : String) (v : Value) :
    Except ValError Unit :=
  match fields.find? (fun g =>
      g.col_name == name && g.type == "str" && g.allowed_values.isSome &&
      !(valueInStrList v (g.allowed_values.getD []))) with
  | some _ => .error (.invalidValue name)
  | none => .ok ()

/-- Stage 3 of the `update_schema_item` per-field loop (main.py lines
390-396): find the first schema field with this name and truthy `unique`
(the loop breaks there); if another stored document (different record
identifier) already carries the candidate value, raise `"{name} must be
unique"`. -/
def updUniqueCheck (fields : List FieldModel) (coll : List Doc) (oid : Nat)
    (name : String) (v : Value) : Except ValError Unit :=
  match fields.find? (fun g => g.col_name == name && uniqueT g.unique) with
  | none => .ok ()
  | some _ =>
    match findByField coll name v with
    | none => .ok ()
    | some d => if d.id ≠ oid then .error (.uniquenessViolation name) else .ok ()

/-- Python `key in container` for the container shapes reachable here: key
membership for a dict, elementwise `==` for a list (other shapes raise in
Python and are modelled as no match). -/
def keyInValue (k : String) (v : Value) : Bool :=
  match v with
  | .vdict entries => entries.any (fun kv => kv.1 == k)
  | .vlist elems => elems.any (fun e => Value.beq e (.vstr k))
  | _ => false

/-- Stage 4 of the `update_schema_item` per-field loop (main.py lines
399-404): for fields of this name with type `"list"` or `"dict"`, a present
`allowed_values` key must list the value, and a present `dict_keys` key
requires every declared key to be present in the value (else `"Missing keys
for {name}"`). -/
def updListDictCheck (fields : List FieldModel) (name : String) (v : Value) :
    Except ValError Unit :=
  match fields with
  | [] => .ok ()
  | g :: gs =>
    if g.col_name == name && (g.type == "list" || g.type == "dict") then
      if g.allowed_values.isSome && !(valueInStrList v (g.allowed_values.getD [])) then
        .error (.invalidValue name)
      else if g.dict_keys.isSome && !((g.dict_keys.getD []).all (fun dk => keyInValue dk.1 v)) then
        .error (.missingKeys name)
      else
        updListDictCheck gs name v
    else
      updListDictCheck gs name v

/-- One iteration of the `update_schema_item` loop over the supplied
`updated_fields`, before its `update_one` write. -/
def processUpdateField (fields : List FieldModel) (coll : List Doc) (oid : Nat)
    (name : String) (v : Value) : Except ValError Unit := do
  updFieldExistsCheck fields name
  updStrAllowedCheck fields name v
  updUniqueCheck fields coll oid name v
  updListDictCheck fields name v

/-- Model of `update_schema_item` of `MasterCRUD/main.py`: process the supplied
fields one at a time, in order; each field is validated against the current
collection state and then immediately written with `update_one`/`$set`.
The first violation aborts the remaining fields, but writes already applied
for earlier supplied fields stay.  Returns the resulting collection and the
error, if any. -/
def update_schema_item (fields : List FieldModel) (coll : List Doc) (oid : Nat)
    (upds : List (String × Value)) : List Doc × Option ValError :=
  match upds with
  | [] => (coll, none)
  | (name, v) :: rest =>
    match processUpdateField fields coll oid name v with
    | .error e => (coll, some e)
    | .ok _ => update_schema_item fields (applySet coll oid name v) oid rest

end MasterCRUD

/-- Python `str.lower()`, characterwise. -/
def pyLower (s : String) : String :=
  ⟨s.data.map Char.toLower⟩

/-- A stored schema definition (one document of the `masterlist`
collection): name, creation date and field list.  `add_schema` of main.py
copies `col_name` and `type` and the optional `unique` / `allowed_values` /
`dict_keys` keys of each request field into the stored document, which on
this representation is the identity. -/
structure SchemaDoc where
  schema_name : String
  created_at : String
  fields : List FieldModel
  deriving Repr, DecidableEq

/-- A schema-creation request body (after the presence check for the
`schema_name` and `fields` keys). -/
structure SchemaReq where
  schema_name : String
  fields : List FieldModel
  deriving Repr, DecidableEq

/-- Errors of the schema-store routes: `duplicateSchema` is the 400 `"Schema
with the same name already exists"`, `invalidSchemaName` the 400 `"Schema
name cannot contain spaces"`, `schemaNotFound` the 404 `"Schema not
found"`. -/
inductive RegError where
  | duplicateSchema
  | invalidSchemaName
  | schemaNotFound
  deriving Repr, DecidableEq

/-- Model of `collection.find_one({"schema_name": n})`: first stored schema of that
exact name. -/
def findSchema (store : List SchemaDoc) (n : String) : Option SchemaDoc :=
  store.find? (fun d => d.schema_name == n)

namespace MasterCRUD

/-- Model of `add_schema` of `MasterCRUD/main.py`: lowercase the requested name,
reject names containing a space (`" " in schema_name`), reject names already
stored (`find_one({"schema_name": name})`), otherwise insert the new schema
document stamped with the current date.  Every rejection happens before the
insert, so an error leaves the store unchanged. -/
def add_schema (store : List SchemaDoc) (req : SchemaReq) (now : String) :
    Except RegError (List SchemaDoc) :=
  let name := pyLower req.schema_name
  if name.data.contains ' ' then
    .error .invalidSchemaName
  else if (findSchema store name).isSome then
    .error .duplicateSchema
  else
    .ok (store ++ [⟨name, now, req.fields⟩])

/-- Model of `replace_one({"schema_name": n}, newDoc)`: replace the first stored
schema of that name. -/
def replaceSchemaDoc (store : List SchemaDoc) (n : String) (newDoc : SchemaDoc) :
    List SchemaDoc :=
  match store with
  | [] => []
  | d :: ds =>
    if d.schema_name == n then newDoc :: ds
    else d :: replaceSchemaDoc ds n newDoc

/-- Model of `replace_schema_fields` of `MasterCRUD/main.py`: 404 if no schema of
that exact name exists, otherwise replace the whole schema document with one
carrying the new field list and a freshly stamped `created_at`. -/
def replace_schema_fields (store : List SchemaDoc) (n : String)
    (newFields : List FieldModel) (now : String) :
    Except RegError (List SchemaDoc) :=
  if (findSchema store n).isSome then
    .ok (replaceSchemaDoc store n ⟨n, now, newFields⟩)
  else
    .error .schemaNotFound

/-- Model of `get_schema_field` of `MasterCRUD/main.py` (route `/getfields/{name}/`):
404 if no schema of that name exists, otherwise return the stored schema
document. -/
def get_schema_field (store : List SchemaDoc) (n : String) :
    Except RegError SchemaDoc :=
  match findSchema store n with
  | some d => .ok d
  | none => .error .schemaNotFound

end MasterCRUD

/-- Python `s.split(c)` for a single-character separator: all (possibly
empty) segments between occurrences of the separator; never the empty
list. -/
def splitOnChar (c : Char) : List Char → List (List Char)
  | [] => [[]]
  | x :: xs =>
    if x = c then
      [] :: splitOnChar c xs
    else
      match splitOnChar c xs with
      | s :: ss => (x :: s) :: ss
      | [] => [[x]]

/-- Joining segments with a single-character separator (the inverse of
`splitOnChar` on separator-free segments). -/
def joinWithChar (c : Char) : List (List Char) → List Char
  | [] => []
  | [x] => x
  | x :: xs => x ++ c :: joinWithChar c xs

/-- The error raised by a malformed filter segment: the spec names it
`FilterSyntaxError`; in the source the two-element unpacking of
`f.split(":")` raises a `ValueError` for any segment that does not split
into exactly two parts. -/
inductive FilterError where
  | filterSyntaxError
  deriving Repr, DecidableEq

/-- One segment of the filter string: `field, value = f.split(":")`
succeeds exactly when the segment holds exactly one colon. -/
def parseFilterSegment (seg : List Char) : Except FilterError (String × String) :=
  match splitOnChar ':' seg with
  | [f, v] => .ok (⟨f⟩, ⟨v⟩)
  | _ => .error .filterSyntaxError

/-- The segment loop of `parse_filter_string`, aborting at the first
malformed segment. -/
def parseFilterSegments : List (List Char) → Except FilterError (List (String × String))
  | [] => .ok []
  | seg :: segs => do
    let p ← parseFilterSegment seg
    let ps ← parseFilterSegments segs
    .ok (p :: ps)

/-- Model of `parse_filter_string` of `MasterCRUD/main.py`: split the filter string
on commas, then split every segment on a colon into a (field, value) pair of
strings; the resulting pairs form the conjunctive exact-match query built by
`get_items_by_fields`. -/
def parse_filter_string (s : String) : Except FilterError (List (String × String)) :=
  parseFilterSegments (splitOnChar ',' s.data)

/-- Rendering a list of (field, value) pairs in the `f1:v1,f2:v2` filter
syntax. -/
def renderFilter (ps : List (String × String)) : String :=
  ⟨joinWithChar ',' (ps.map (fun p => p.1.data ++ ':' :: p.2.data))⟩

/-- Per-row errors collected by `import_data` (main.py lines 282-315), one
constructor per appended `error_details` message: `"Missing column: {c}"`,
`"Invalid JSON format for column: {c}"`, `"Invalid value for {c}"`,
`"{c} must be unique"`, `"Invalid key for {c}: {k}"`. -/
inductive RowError where
  | missingColumn (col : String)
  | invalidJSON (col : String)
  | invalidValue (col : String)
  | mustBeUnique (col : String)
  | invalidKey (col : String) (key : String)
  deriving Repr, DecidableEq

/-- The field named by a per-row import error (every `error_details` message
names its offending column). -/
def RowError.field : RowError → String
  | .missingColumn col => col
  | .invalidJSON col => col
  | .invalidValue col => col
  | .mustBeUnique col => col
  | .invalidKey col _ => col

/-- One row of the uploaded tabular file: column name to cell text, as
produced by `pandas` for a delimited file. -/
abbrev Row : Type :=
  List (String × String)

/-- Python `cell.replace("\x27", "\x22")`: replace every single-quote
character by a double quote (the preprocessing `import_data` applies to a
dict-kind cell before `json.loads`). -/
def pyReplaceQuotes (s : String) : String :=
  ⟨s.data.map (fun c => if c = '\x27' then '\x22' else c)⟩

/-- Cell lookup in a row (`row[col]` via the pandas Series index). -/
def rowGet : List (String × String) → String → Option String
  | [], _ => none
  | kv :: rest, k => if kv.1 == k then some kv.2 else rowGet rest k

namespace MasterCRUD

/-- The dict-keys block inside the non-dict branch of the `import_data`
field loop (main.py lines 310-315).  Its guard repeats the `field["type"] ==
"dict"` test inside the branch where that test has just failed, so this
block is unreachable; it is kept for structural fidelity and flags every
parsed key not declared in `dict_keys`. -/
def importDeadDictKeyErrors (jl : String → Option Value) (cell : String)
    (f : FieldModel) : List RowError :=
  match jl (pyReplaceQuotes cell) with
  | some (.vdict entries) =>
    (entries.filter (fun kv => !((f.dict_keys.getD []).any (fun dk => dk.1 == kv.1)))).map
      (fun kv => .invalidKey f.col_name kv.1)
  | _ => []

/-- One schema field of the `import_data` row loop (main.py lines 282-317),
threading the accumulated record (`item_data`) and error list
(`error_details`): a missing column is one error (and skips the rest of the
checks for this field via `continue`); a dict-kind cell is parsed as JSON
after replacing single by double quotes, a parse failure being one more
error; any other field is checked against a present `allowed_values` key
(plain cell membership) and, when `unique` is truthy, against the stored
collection, and its cell is stored in the record even when flagged. -/
def importFieldStep (coll : List Doc) (jl : String → Option Value) (row : Row)
    (acc : List (String × Value) × List RowError) (f : FieldModel) :
    List (String × Value) × List RowError :=
  let item := acc.1
  let errs := acc.2
  match rowGet row f.col_name with
  | none => (item, errs ++ [.missingColumn f.col_name])
  | some cell =>
    if f.type == "dict" then
      match jl (pyReplaceQuotes cell) with
      | some v => (setVal item f.col_name v, errs)
      | none => (item, errs ++ [.invalidJSON f.col_name])
    else
      let errs :=
        if f.allowed_values.isSome && !((f.allowed_values.getD []).contains cell) then
          errs ++ [.invalidValue f.col_name]
        else errs
      let errs :=
        if uniqueT f.unique && (findByField coll f.col_name (.vstr cell)).isSome then
          errs ++ [.mustBeUnique f.col_name]
        else errs
      let errs :=
        if f.type == "dict" && dictKeysT f.dict_keys then
          errs ++ importDeadDictKeyErrors jl cell f
        else errs
      (setVal item f.col_name (.vstr cell), errs)

/-- Validation of one imported row against the schema (the inner loop of
`import_data`): every schema field contributes its checks and the record is
finally stamped with `modified_date`.  The row is invalid exactly when the
error list is nonempty (each append of an error also sets the
`invalid_item` flag in the source). -/
def validateRow (fields : List FieldModel) (coll : List Doc)
    (jl : String → Option Value) (row : Row) (now : String) :
    List (String × Value) × List RowError :=
  let acc := fields.foldl (importFieldStep coll jl row) ([], [])
  (setVal acc.1 "modified_date" (.vstr now), acc.2)

/-- Model of `insert_many`: append all accepted records to the collection, the store
assigning fresh identifiers. -/
def insertMany (coll : List Doc) (items : List (List (String × Value))) : List Doc :=
  coll ++ items.mapIdx (fun i item => ⟨coll.length + i, item⟩)

/-- The row loop of `import_data` (main.py lines 276-330): valid rows are
accumulated into `valid_data`, failing rows into `invalid_data` as (raw row,
errors) pairs; no row ever aborts the loop. -/
def importLoop (fields : List FieldModel) (coll : List Doc)
    (jl : String → Option Value) (now : String) :
    List Row → List (List (String × Value)) × List (Row × List RowError) →
      List (List (String × Value)) × List (Row × List RowError)
  | [], acc => acc
  | row :: rest, acc =>
    let res := validateRow fields coll jl row now
    importLoop fields coll jl now rest
      (if res.2.isEmpty then (acc.1 ++ [res.1], acc.2)
       else (acc.1, acc.2 ++ [(row, res.2)]))

/-- The row loop of `import_data`, started on empty `valid_data` and
`invalid_data` accumulators. -/
def importRows (fields : List FieldModel) (coll : List Doc)
    (jl : String → Option Value) (now : String) (rows : List Row) :
    List (List (String × Value)) × List (Row × List RowError) :=
  importLoop fields coll jl now rows ([], [])

/-- Model of `import_data` of `MasterCRUD/main.py`: validate every row against the
schema, insert all valid records in one `insert_many`, and return the
resulting collection together with the per-row failure entries reported to
the caller.  The uniqueness checks of all rows run against the collection as
it was before the import (the batch is inserted only at the end). -/
def import_data (fields : List FieldModel) (coll : List Doc)
    (jl : String → Option Value) (now : String) (rows : List Row) :
    List Doc × List (Row × List RowError) :=
  let res := importRows fields coll jl now rows
  (insertMany coll res.1, res.2)

end MasterCRUD

/-- Python iteration over a runtime value (`for x in v`): a list yields its
elements, a string its characters, a dict its keys; other shapes raise
`TypeError` (`none` here). -/
def pyIter (v : Value) : Option (List Value) :=
  match v with
  | .vlist elems => some elems
  | .vstr s => some (s.data.map (fun ch => .vstr ⟨[ch]⟩))
  | .vdict entries => some (entries.map (fun kv => .vstr kv.1))
  | _ => none

namespace Mowlee

/-- The list/allowed-values loop body of `add_item` in `Github mowlee/19.py`
(lines 188-192): for a field of type `"list"` with truthy `allowed_values`,
iterate over the candidate value and reject with `"Invalid value for {col}"`
unless every element is a member of the allowed list.  A missing or
non-iterable candidate raises `TypeError` (unreachable for payloads typed by
the generated model). -/
def listAllowedCheck (f : FieldModel) (v : Option Value) : Except ValError Unit :=
  if f.type == "list" && allowedT f.allowed_values then
    match v with
    | none => .error (.typeError f.col_name)
    | some w =>
      match pyIter w with
      | none => .error (.typeError f.col_name)
      | some elems =>
        if elems.all (fun e => valueInStrList e (f.allowed_values.getD [])) then
          .ok ()
        else
          .error (.invalidValue f.col_name)
  else
    .ok ()

/-- The three validation loops of `add_item` in `Github mowlee/19.py`
(uniqueness over all fields, then list/allowed values over all fields, then
dict keys over all fields), aborting at the first violation.  The
uniqueness and dict-keys loops coincide with the MasterCRUD blocks. -/
def validateItem (fields : List FieldModel) (coll : List Doc)
    (item : List (String × Value)) : Except ValError Unit := do
  match fields.find? (fun f => uniqueT f.unique &&
      (match lookupVal item f.col_name with
       | some v => (findByField coll f.col_name v).isSome
       | none => false)) with
  | some f => throw (.uniquenessViolation f.col_name)
  | none => pure ()
  match fields.findSome? (fun f =>
      match listAllowedCheck f (lookupVal item f.col_name) with
      | .error e => some e
      | .ok _ => none) with
  | some e => throw e
  | none => pure ()
  match fields.findSome? (fun f =>
      match MasterCRUD.dictKeysCheck item f with
      | .error e => some e
      | .ok _ => none) with
  | some e => throw e
  | none => pure ()

/-- Model of `add_item` of `Github mowlee/19.py`: validate, then insert the payload
(no timestamp is stamped in this variant). -/
def add_item (fields : List FieldModel) (coll : List Doc)
    (item : List (String × Value)) : List Doc × Option ValError :=
  match validateItem fields coll item with
  | .error e => (coll, some e)
  | .ok _ => (coll ++ [⟨coll.length, item⟩], none)

end Mowlee

/-- Errors raised by the routes of `Sharath - GIT/Backend.py`:
`mustBeUnique c` is `"{c} must be unique"`, `invalidValue c` is `"{c} must
be one of ..."`; `keyError c` and `attributeError c` model the uncaught
Python `KeyError` (payload key absent) and `AttributeError` (`.items()` on a
non-dict). -/
inductive SharathError where
  | mustBeUnique (col : String)
  | invalidValue (col : String)
  | keyError (col : String)
  | attributeError (col : String)
  deriving Repr, DecidableEq

namespace Sharath

/-- Filtering of a dict value by the declared `dict_keys` (Backend.py lines
73 and 121): keep exactly the entries whose key is declared. -/
def filterDeclared (ks : List (String × String)) (entries : List (String × Value)) :
    List (String × Value) :=
  entries.filter (fun kv => ks.any (fun dk => dk.1 == kv.1))

/-- The uniqueness block of one `add_item` loop iteration in
`Sharath - GIT/Backend.py` (lines 61-64): for a field with truthy `unique`,
an existing document carrying the candidate value raises `"{col} must be
unique"`. -/
def uniqueStage (coll : List Doc) (item : List (String × Value)) (f : FieldModel) :
    Except SharathError Unit :=
  if uniqueT f.unique then
    match lookupVal item f.col_name with
    | none => .error (.keyError f.col_name)
    | some v =>
      if (findByField coll f.col_name v).isSome then
        .error (.mustBeUnique f.col_name)
      else .ok ()
  else .ok ()

/-- The allowed-values block of one `add_item` loop iteration in
`Sharath - GIT/Backend.py` (lines 65-70): when `field.allowed_values is not
None` (a presence test, not a truthiness test), the candidate value must be
a member, and the checked value is reassigned into the record (a value-level
no-op). -/
def allowedStage (item : List (String × Value)) (f : FieldModel) :
    Except SharathError (List (String × Value)) :=
  match f.allowed_values with
  | none => .ok item
  | some allowed =>
    match lookupVal item f.col_name with
    | none => .error (.keyError f.col_name)
    | some v =>
      if valueInStrList v allowed then .ok (setVal item f.col_name v)
      else .error (.invalidValue f.col_name)

/-- The dict-keys block of one `add_item` loop iteration in
`Sharath - GIT/Backend.py` (lines 72-73): when `field.dict_keys is not
None`, silently replace the dict value by its restriction to the declared
keys (a non-dict value raises `AttributeError` at `.items()`). -/
def dictFilterStage (item : List (String × Value)) (f : FieldModel) :
    Except SharathError (List (String × Value)) :=
  match f.dict_keys with
  | none => .ok item
  | some ks =>
    match lookupVal item f.col_name with
    | none => .error (.keyError f.col_name)
    | some (.vdict entries) => .ok (setVal item f.col_name (.vdict (filterDeclared ks entries)))
    | some _ => .error (.attributeError f.col_name)

/-- One schema field of the `add_item` loop in `Sharath - GIT/Backend.py`
(lines 60-73), threading the record being built: uniqueness check, then
allowed-values check, then the silent dict-keys filtering. -/
def fieldStep (coll : List Doc) (item : List (String × Value)) (f : FieldModel) :
    Except SharathError (List (String × Value)) :=
  match uniqueStage coll item f with
  | .error e => .error e
  | .ok _ =>
    match allowedStage item f with
    | .error e => .error e
    | .ok item1 => dictFilterStage item1 f

/-- The field loop of `add_item` in `Sharath - GIT/Backend.py`, aborting at
the first violation and otherwise returning the (possibly filtered)
record. -/
def runFields (coll : List Doc) (fields : List FieldModel)
    (item : List (String × Value)) : Except SharathError (List (String × Value)) :=
  match fields with
  | [] => .ok item
  | f :: fs =>
    match fieldStep coll item f with
    | .error e => .error e
    | .ok item1 => runFields coll fs item1

/-- Model of `add_item` of `Sharath - GIT/Backend.py`: stamp `created_at`, then, when
the schema definition is found, run the per-field checks and filters; the
record (filtered or, with no schema definition found, raw) is inserted. -/
def add_item (schemaDef : Option (List FieldModel)) (coll : List Doc)
    (item : List (String × Value)) (now : String) :
    Except SharathError (List Doc) :=
  let item := setVal item "created_at" (.vstr now)
  match schemaDef with
  | none => .ok (coll ++ [⟨coll.length, item⟩])
  | some fields =>
    match runFields coll fields item with
    | .error e => .error e
    | .ok item2 => .ok (coll ++ [⟨coll.length, item2⟩])

/-- Outcomes of the Sharath update route: `updated c` is the success message
for field `c`; `noValidField`, `noItem` and `schemaMissing` are the
non-raising message returns of the source; `failed e` is a raised
validation error. -/
inductive UpdateOutcome where
  | updated (col : String)
  | noValidField
  | noItem
  | schemaMissing
  | failed (e : SharathError)
  deriving Repr, DecidableEq

/-- Model of `update_schema_item` of `Sharath - GIT/Backend.py` (lines 79-129): pick
the first schema field present in the payload as `field_to_update`; check
the target document exists; run the uniqueness scan (`for field_name, field
in fields.items(): if field_name == field_to_update and field.unique: ...
break`).  The scan loop rebinds the variable `field`, which the later
allowed-values and dict-keys blocks keep using: after a `break` it is the
matching unique field, but when the scan runs to the end it is the LAST
schema field, so the filtering of the updated value is driven by that
leaked field, not necessarily by the field being updated. -/
def update_schema_item (schemaDef : Option (List FieldModel)) (coll : List Doc)
    (oid : Nat) (item : List (String × Value)) : List Doc × UpdateOutcome :=
  match schemaDef with
  | none => (coll, .schemaMissing)
  | some fields =>
    match fields.find? (fun g => (lookupVal item g.col_name).isSome) with
    | none => (coll, .noValidField)
    | some fsel =>
      match findById coll oid with
      | none => (coll, .noItem)
      | some _ =>
        let name := fsel.col_name
        match lookupVal item name with
        | none => (coll, .failed (.keyError name))
        | some v =>
          let scan := fields.find? (fun g => g.col_name == name && uniqueT g.unique)
          let uniqueErr : Option SharathError :=
            match scan with
            | none => none
            | some _ =>
              match findByField coll name v with
              | none => none
              | some d => if d.id ≠ oid then some (.mustBeUnique name) else none
          match uniqueErr with
          | some e => (coll, .failed e)
          | none =>
            match (match scan with
                   | some g => some g
                   | none => fields.getLast?) with
            | none => (coll, .noValidField)
            | some leaked =>
              match leaked.allowed_values with
              | some allowed =>
                if valueInStrList v allowed then
                  match leaked.dict_keys with
                  | some ks =>
                    match v with
                    | .vdict entries =>
                      (applySet coll oid name (.vdict (filterDeclared ks entries)), .updated name)
                    | _ => (coll, .failed (.attributeError name))
                  | none => (applySet coll oid name v, .updated name)
                else (coll, .failed (.invalidValue name))
              | none =>
                match leaked.dict_keys with
                | some ks =>
                  match v with
                  | .vdict entries =>
                    (applySet coll oid name (.vdict (filterDeclared ks entries)), .updated name)
                  | _ => (coll, .failed (.attributeError name))
                | none => (applySet coll oid name v, .updated name)

end Sharath




/-! ## Helper lemmas about the dictionary model -/

theorem lookupVal_setVal_self (item : List (String × Value)) (k : String) (v : Value) :
    lookupVal (setVal item k v) k = some v := by
  induction item with
  | nil => simp [setVal, lookupVal]
  | cons a rest ih =>
    by_cases hak : a.1 = k
    · simp [setVal, lookupVal, hak]
    · have hak2 : (a.1 == k) = false := by simpa using hak
      simp [setVal, lookupVal, hak2, ih]

theorem lookupVal_setVal_ne (item : List (String × Value)) (k j : String) (v : Value)
    (h : k ≠ j) : lookupVal (setVal item j v) k = lookupVal item k := by
  have hjk : (j == k) = false := by simpa using (Ne.symm h)
  induction item with
  | nil => simp [setVal, lookupVal, hjk]
  | cons a rest ih =>
    by_cases haj : a.1 = j
    · have haj2 : (a.1 == j) = true := by simpa using haj
      have hak : (a.1 == k) = false := by
        simp only [beq_eq_false_iff_ne]
        rw [haj]
        exact Ne.symm h
      simp [setVal, lookupVal, haj2, hak, hjk]
    · have haj2 : (a.1 == j) = false := by simpa using haj
      simp only [setVal, haj2, Bool.false_eq_true, if_false]
      by_cases hak : a.1 = k
      · have hak2 : (a.1 == k) = true := by simpa using hak
        simp [lookupVal, hak2]
      · have hak2 : (a.1 == k) = false := by simpa using hak
        simp [lookupVal, hak2, ih]

/-! ## Helper lemmas about the MasterCRUD validation pipeline -/

theorem checkField_error_of_unique {coll : List Doc} {item : List (String × Value)}
    {f : FieldModel} {e : ValError} (h : MasterCRUD.uniqueCheck coll item f = .error e) :
    MasterCRUD.checkField coll item f = .error e := by
  simp [MasterCRUD.checkField, h, Bind.bind, Except.bind]

theorem checkField_error_of_dictKeys {coll : List Doc} {item : List (String × Value)}
    {f : FieldModel} {e : ValError}
    (h : MasterCRUD.dictKeysCheck item f = .error e) :
    ∃ e2, MasterCRUD.checkField coll item f = .error e2 := by
  cases hu : MasterCRUD.uniqueCheck coll item f with
  | error eu => exact ⟨eu, checkField_error_of_unique hu⟩
  | ok u =>
    cases ha : MasterCRUD.allowedCheck item f with
    | error ea =>
      refine ⟨ea, ?_⟩
      simp [MasterCRUD.checkField, hu, ha, Bind.bind, Except.bind]
    | ok a =>
      refine ⟨e, ?_⟩
      simp [MasterCRUD.checkField, hu, ha, h, Bind.bind, Except.bind]

theorem validateFields_error_of_mem {fields : List FieldModel} {coll : List Doc}
    {item : List (String × Value)} {f : FieldModel} {e : ValError}
    (hf : f ∈ fields) (he : MasterCRUD.checkField coll item f = .error e) :
    ∃ e2, MasterCRUD.validateFields fields coll item = .error e2 := by
  induction fields with
  | nil => cases hf
  | cons g gs ih =>
    cases hg : MasterCRUD.checkField coll item g with
    | error eg =>
      refine ⟨eg, ?_⟩
      simp [MasterCRUD.validateFields, hg, Bind.bind, Except.bind]
    | ok u =>
      rcases List.mem_cons.mp hf with hfg | hfg
      · rw [hfg] at he
        rw [he] at hg
        cases hg
      · rcases ih hfg with ⟨e2, h2⟩
        refine ⟨e2, ?_⟩
        simp [MasterCRUD.validateFields, hg, h2, Bind.bind, Except.bind]

theorem add_item_of_validate_error {fields : List FieldModel} {coll : List Doc}
    {item : List (String × Value)} {now : String} {e : ValError}
    (h : MasterCRUD.validateFields fields coll (setVal item "modified_date" (.vstr now)) = .error e) :
    MasterCRUD.add_item fields coll item now = (coll, some e) := by
  simp [MasterCRUD.add_item, h]

theorem add_item_unchanged_of_error (fields : List FieldModel) (coll : List Doc)
    (item : List (String × Value)) (now : String)
    (h : (MasterCRUD.add_item fields coll item now).2.isSome = true) :
    (MasterCRUD.add_item fields coll item now).1 = coll := by
  cases hv : MasterCRUD.validateFields fields coll (setVal item "modified_date" (.vstr now)) with
  | error e => simp [MasterCRUD.add_item, hv]
  | ok u =>
    exfalso
    simp [MasterCRUD.add_item, hv] at h

/-! ## Helper lemmas about filter-string splitting -/

theorem splitOnChar_of_not_mem (c : Char) (l : List Char) (h : c ∉ l) :
    splitOnChar c l = [l] := by
  induction l with
  | nil => rfl
  | cons x xs ih =>
    have hxc : ¬x = c := by
      intro hx
      exact h (hx ▸ List.mem_cons_self x xs)
    have hxs : c ∉ xs := fun hm => h (List.mem_cons_of_mem x hm)
    simp [splitOnChar, hxc, ih hxs]

theorem splitOnChar_append_sep (c : Char) (x rest : List Char) (h : c ∉ x) :
    splitOnChar c (x ++ c :: rest) = x :: splitOnChar c rest := by
  induction x with
  | nil => simp [splitOnChar]
  | cons a x2 ih =>
    have hac : ¬a = c := by
      intro ha
      exact h (ha ▸ List.mem_cons_self a x2)
    have hx2 : c ∉ x2 := fun hm => h (List.mem_cons_of_mem a hm)
    simp [splitOnChar, hac, ih hx2]

theorem splitOnChar_joinWithChar (c : Char) (ls : List (List Char))
    (h : ∀ l ∈ ls, c ∉ l) (h2 : ls ≠ []) :
    splitOnChar c (joinWithChar c ls) = ls := by
  induction ls with
  | nil => cases h2 rfl
  | cons x xs ih =>
    cases xs with
    | nil =>
      simp only [joinWithChar]
      exact splitOnChar_of_not_mem c x (h x (List.mem_cons_self x []))
    | cons y ys =>
      have hx : c ∉ x := h x (List.mem_cons_self x (y :: ys))
      have htail : ∀ l ∈ y :: ys, c ∉ l := fun l hl => h l (List.mem_cons_of_mem x hl)
      calc splitOnChar c (joinWithChar c (x :: y :: ys))
          = splitOnChar c (x ++ c :: joinWithChar c (y :: ys)) := rfl
        _ = x :: splitOnChar c (joinWithChar c (y :: ys)) := splitOnChar_append_sep c x _ hx
        _ = x :: (y :: ys) := by rw [ih htail (by simp)]

theorem parseFilterSegment_pair (p : String × String)
    (h1 : ':' ∉ p.1.data) (h2 : ':' ∉ p.2.data) :
    parseFilterSegment (p.1.data ++ ':' :: p.2.data) = .ok p := by
  rw [parseFilterSegment, splitOnChar_append_sep ':' p.1.data _ h1,
    splitOnChar_of_not_mem ':' p.2.data h2]

theorem parseFilterSegments_map (ps : List (String × String))
    (h : ∀ p ∈ ps, ':' ∉ p.1.data ∧ ':' ∉ p.2.data) :
    parseFilterSegments (ps.map (fun p => p.1.data ++ ':' :: p.2.data)) = .ok ps := by
  induction ps with
  | nil => rfl
  | cons p ps2 ih =>
    have hp := h p (List.mem_cons_self p ps2)
    have htail : ∀ q ∈ ps2, ':' ∉ q.1.data ∧ ':' ∉ q.2.data :=
      fun q hq => h q (List.mem_cons_of_mem p hq)
    simp [parseFilterSegments, parseFilterSegment_pair p hp.1 hp.2, ih htail,
      Bind.bind, Except.bind]

theorem parseFilterSegments_error (segs : List (List Char)) (seg : List Char)
    (hm : seg ∈ segs) (hc : ':' ∉ seg) :
    parseFilterSegments segs = .error .filterSyntaxError := by
  induction segs with
  | nil => cases hm
  | cons s ss ih =>
    cases hps : parseFilterSegment s with
    | error e =>
      cases e
      simp [parseFilterSegments, hps, Bind.bind, Except.bind]
    | ok p =>
      rcases List.mem_cons.mp hm with hs | hs
      · exfalso
        rw [hs] at hc
        rw [parseFilterSegment, splitOnChar_of_not_mem ':' s hc] at hps
        cases hps
      · simp [parseFilterSegments, hps, ih hs, Bind.bind, Except.bind]

/-! ## Helper lemmas about the schema store -/

theorem findSchema_append_of_none (store l2 : List SchemaDoc) (n : String)
    (h : findSchema store n = none) :
    findSchema (store ++ l2) n = findSchema l2 n := by
  simp only [findSchema] at h ⊢
  rw [List.find?_append, h]
  rfl

theorem findSchema_replace (store : List SchemaDoc) (n : String) (newDoc : SchemaDoc)
    (hs : (findSchema store n).isSome = true) (hn : newDoc.schema_name = n) :
    findSchema (MasterCRUD.replaceSchemaDoc store n newDoc) n = some newDoc := by
  induction store with
  | nil => simp [findSchema] at hs
  | cons d ds ih =>
    by_cases hd : d.schema_name = n
    · have hd2 : (d.schema_name == n) = true := by simpa using hd
      have hn2 : (newDoc.schema_name == n) = true := by simpa using hn
      simp [MasterCRUD.replaceSchemaDoc, hd2, findSchema, List.find?_cons_of_pos, hn2]
    · have hd2 : (d.schema_name == n) = false := by simpa using hd
      have hs2 : (findSchema ds n).isSome = true := by
        simpa [findSchema, List.find?_cons_of_neg, hd2] using hs
      have := ih hs2
      simp only [findSchema] at this
      simp [MasterCRUD.replaceSchemaDoc, hd2, findSchema, List.find?_cons_of_neg, this]

/-! ## Helper lemmas about the batch-import loop -/

theorem importLoop_eq (fields : List FieldModel) (coll : List Doc)
    (jl : String → Option Value) (now : String) (rows : List Row)
    (acc : List (List (String × Value)) × List (Row × List RowError)) :
    MasterCRUD.importLoop fields coll jl now rows acc =
      (acc.1 ++ (rows.filter
          (fun r => (MasterCRUD.validateRow fields coll jl r now).2.isEmpty)).map
          (fun r => (MasterCRUD.validateRow fields coll jl r now).1),
       acc.2 ++ (rows.filter
          (fun r => !(MasterCRUD.validateRow fields coll jl r now).2.isEmpty)).map
          (fun r => (r, (MasterCRUD.validateRow fields coll jl r now).2))) := by
  induction rows generalizing acc with
  | nil => simp [MasterCRUD.importLoop]
  | cons row rest ih =>
    by_cases hr : (MasterCRUD.validateRow fields coll jl row now).2.isEmpty
    · simp [MasterCRUD.importLoop, hr, ih, List.filter_cons]
    · have hr2 : (MasterCRUD.validateRow fields coll jl row now).2.isEmpty = false := by
        simpa using hr
      simp [MasterCRUD.importLoop, hr2, ih, List.filter_cons]

theorem importFieldStep_field (coll : List Doc) (jl : String → Option Value)
    (row : Row) (acc : List (String × Value) × List RowError) (f : FieldModel)
    (e : RowError) (he : e ∈ (MasterCRUD.importFieldStep coll jl row acc f).2) :
    e ∈ acc.2 ∨ RowError.field e = f.col_name := by
  cases hr : rowGet row f.col_name with
  | none =>
    rw [MasterCRUD.importFieldStep, hr] at he
    rcases List.mem_append.mp he with h | h
    · exact Or.inl h
    · right
      simp only [List.mem_singleton] at h
      rw [h]
      rfl
  | some cell =>
    by_cases hd : (f.type == "dict") = true
    · rw [MasterCRUD.importFieldStep, hr] at he
      simp only [hd, if_true] at he
      cases hj : jl (pyReplaceQuotes cell) with
      | some v =>
        rw [hj] at he
        exact Or.inl he
      | none =>
        rw [hj] at he
        rcases List.mem_append.mp he with h | h
        · exact Or.inl h
        · right
          simp only [List.mem_singleton] at h
          rw [h]
          rfl
    · have hd2 : (f.type == "dict") = false := by simpa using hd
      rw [MasterCRUD.importFieldStep, hr] at he
      simp only [hd2, Bool.false_eq_true, if_false, Bool.false_and] at he
      split_ifs at he with h1 h2
      · simp only [List.mem_append, List.mem_singleton] at he
        rcases he with (h | rfl) | rfl
        · exact Or.inl h
        · exact Or.inr rfl
        · exact Or.inr rfl
      · simp only [List.mem_append, List.mem_singleton] at he
        rcases he with h | rfl
        · exact Or.inl h
        · exact Or.inr rfl
      · simp only [List.mem_append, List.mem_singleton] at he
        rcases he with h | rfl
        · exact Or.inl h
        · exact Or.inr rfl
      · exact Or.inl he

theorem importFold_field (coll : List Doc) (jl : String → Option Value) (row : Row)
    (fields : List FieldModel) :
    ∀ (acc : List (String × Value) × List RowError) (e : RowError),
      e ∈ (fields.foldl (MasterCRUD.importFieldStep coll jl row) acc).2 →
      e ∈ acc.2 ∨ ∃ f ∈ fields, RowError.field e = f.col_name := by
  induction fields with
  | nil =>
    intro acc e he
    exact Or.inl he
  | cons f fs ih =>
    intro acc e he
    rw [List.foldl_cons] at he
    rcases ih (MasterCRUD.importFieldStep coll jl row acc f) e he with h | h
    · rcases importFieldStep_field coll jl row acc f e h with h2 | h2
      · exact Or.inl h2
      · exact Or.inr ⟨f, List.mem_cons_self f fs, h2⟩
    · rcases h with ⟨g, hg, hge⟩
      exact Or.inr ⟨g, List.mem_cons_of_mem f hg, hge⟩

theorem validateRow_field (fields : List FieldModel) (coll : List Doc)
    (jl : String → Option Value) (row : Row) (now : String) (e : RowError)
    (he : e ∈ (MasterCRUD.validateRow fields coll jl row now).2) :
    RowError.field e ∈ fields.map FieldModel.col_name := by
  have he2 : e ∈ (fields.foldl (MasterCRUD.importFieldStep coll jl row) ([], [])).2 := he
  rcases importFold_field coll jl row fields ([], []) e he2 with h | h
  · cases h
  · rcases h with ⟨f, hf, hfe⟩
    rw [hfe]
    exact List.mem_map_of_mem FieldModel.col_name hf

/-! ## Helper lemmas about the Sharath variant -/

theorem allowedStage_ok_preserves (item item2 : List (String × Value))
    (f : FieldModel) (c : String) (hok : Sharath.allowedStage item f = .ok item2)
    (hc : c ≠ f.col_name) : lookupVal item2 c = lookupVal item c := by
  cases ha : f.allowed_values with
  | none =>
    simp only [Sharath.allowedStage, ha, Except.ok.injEq] at hok
    rw [hok]
  | some allowed =>
    cases hl : lookupVal item f.col_name with
    | none =>
      simp only [Sharath.allowedStage, ha, hl] at hok
      cases hok
    | some v =>
      simp only [Sharath.allowedStage, ha, hl] at hok
      split_ifs at hok with hin
      simp only [Except.ok.injEq] at hok
      rw [← hok]
      exact lookupVal_setVal_ne item c f.col_name v hc

theorem dictFilterStage_ok_preserves (item item2 : List (String × Value))
    (f : FieldModel) (c : String) (hok : Sharath.dictFilterStage item f = .ok item2)
    (hc : c ≠ f.col_name) : lookupVal item2 c = lookupVal item c := by
  cases hk : f.dict_keys with
  | none =>
    simp only [Sharath.dictFilterStage, hk, Except.ok.injEq] at hok
    rw [hok]
  | some ks =>
    cases hl : lookupVal item f.col_name with
    | none =>
      simp only [Sharath.dictFilterStage, hk, hl] at hok
      cases hok
    | some v =>
      cases v with
      | vdict entries =>
        simp only [Sharath.dictFilterStage, hk, hl, Except.ok.injEq] at hok
        rw [← hok]
        exact lookupVal_setVal_ne item c f.col_name _ hc
      | vint n =>
        simp only [Sharath.dictFilterStage, hk, hl] at hok
        cases hok
      | vstr s =>
        simp only [Sharath.dictFilterStage, hk, hl] at hok
        cases hok
      | vbool b =>
        simp only [Sharath.dictFilterStage, hk, hl] at hok
        cases hok
      | vlist elems =>
        simp only [Sharath.dictFilterStage, hk, hl] at hok
        cases hok

theorem fieldStep_ok_preserves (coll : List Doc) (item item2 : List (String × Value))
    (f : FieldModel) (c : String) (hok : Sharath.fieldStep coll item f = .ok item2)
    (hc : c ≠ f.col_name) : lookupVal item2 c = lookupVal item c := by
  rw [Sharath.fieldStep] at hok
  cases hu : Sharath.uniqueStage coll item f with
  | error e =>
    rw [hu] at hok
    cases hok
  | ok u =>
    rw [hu] at hok
    cases ha : Sharath.allowedStage item f with
    | error e =>
      rw [ha] at hok
      cases hok
    | ok item1 =>
      rw [ha] at hok
      calc lookupVal item2 c
          = lookupVal item1 c := dictFilterStage_ok_preserves item1 item2 f c hok hc
        _ = lookupVal item c := allowedStage_ok_preserves item item1 f c ha hc

theorem runFields_ok_preserves (coll : List Doc) (fs : List FieldModel) (c : String)
    (hc : ∀ g ∈ fs, c ≠ g.col_name) :
    ∀ (item item2 : List (String × Value)),
      Sharath.runFields coll fs item = .ok item2 →
      lookupVal item2 c = lookupVal item c := by
  induction fs with
  | nil =>
    intro item item2 hok
    simp only [Sharath.runFields, Except.ok.injEq] at hok
    rw [hok]
  | cons f fs2 ih =>
    intro item item2 hok
    rw [Sharath.runFields] at hok
    cases hstep : Sharath.fieldStep coll item f with
    | error e =>
      rw [hstep] at hok
      cases hok
    | ok item1 =>
      rw [hstep] at hok
      have h1 : lookupVal item1 c = lookupVal item c :=
        fieldStep_ok_preserves coll item item1 f c hstep
          (hc f (List.mem_cons_self f fs2))
      have h2 : lookupVal item2 c = lookupVal item1 c :=
        ih (fun g hg => hc g (List.mem_cons_of_mem f hg)) item1 item2 hok
      rw [h2, h1]

theorem allowedStage_ok_lookup (item item1 : List (String × Value)) (f : FieldModel)
    (hok : Sharath.allowedStage item f = .ok item1) :
    lookupVal item1 f.col_name = lookupVal item f.col_name := by
  cases ha : f.allowed_values with
  | none =>
    simp only [Sharath.allowedStage, ha, Except.ok.injEq] at hok
    rw [hok]
  | some allowed =>
    cases hl : lookupVal item f.col_name with
    | none =>
      simp only [Sharath.allowedStage, ha, hl] at hok
      cases hok
    | some v =>
      simp only [Sharath.allowedStage, ha, hl] at hok
      split_ifs at hok with hin
      simp only [Except.ok.injEq] at hok
      rw [← hok]
      exact lookupVal_setVal_self item f.col_name v

theorem fieldStep_dict_filter (coll : List Doc) (item item2 : List (String × Value))
    (f : FieldModel) (ks : List (String × String)) (entries : List (String × Value))
    (hdk : f.dict_keys = some ks)
    (hv : lookupVal item f.col_name = some (.vdict entries))
    (hok : Sharath.fieldStep coll item f = .ok item2) :
    lookupVal item2 f.col_name = some (.vdict (Sharath.filterDeclared ks entries)) := by
  rw [Sharath.fieldStep] at hok
  cases hu : Sharath.uniqueStage coll item f with
  | error e =>
    rw [hu] at hok
    cases hok
  | ok u =>
    rw [hu] at hok
    cases ha : Sharath.allowedStage item f with
    | error e =>
      rw [ha] at hok
      cases hok
    | ok item1 =>
      rw [ha] at hok
      have hl1 : lookupVal item1 f.col_name = some (.vdict entries) := by
        rw [allowedStage_ok_lookup item item1 f ha, hv]
      simp only [Sharath.dictFilterStage, hdk, hl1, Except.ok.injEq] at hok
      rw [← hok]
      exact lookupVal_setVal_self item1 f.col_name _

theorem runFields_dict_filter (coll : List Doc) (fs : List FieldModel)
    (f : FieldModel) (ks : List (String × String))
    (hnd : (fs.map FieldModel.col_name).Nodup) (hf : f ∈ fs)
    (hdk : f.dict_keys = some ks) :
    ∀ (item item2 : List (String × Value)) (entries : List (String × Value)),
      lookupVal item f.col_name = some (.vdict entries) →
      Sharath.runFields coll fs item = .ok item2 →
      lookupVal item2 f.col_name = some (.vdict (Sharath.filterDeclared ks entries)) := by
  induction fs with
  | nil => cases hf
  | cons g gs ih =>
    intro item item2 entries hv hok
    rw [Sharath.runFields] at hok
    cases hstep : Sharath.fieldStep coll item g with
    | error e =>
      rw [hstep] at hok
      cases hok
    | ok item1 =>
      rw [hstep] at hok
      have hnd2 : g.col_name ∉ gs.map FieldModel.col_name ∧
          (gs.map FieldModel.col_name).Nodup := by
        rw [List.map_cons] at hnd
        exact List.nodup_cons.mp hnd
      rcases List.mem_cons.mp hf with hfg | hfg
      · have hstep2 : Sharath.fieldStep coll item f = .ok item1 := by
          rw [← hfg] at hstep
          exact hstep
        have h1 : lookupVal item1 f.col_name =
            some (.vdict (Sharath.filterDeclared ks entries)) :=
          fieldStep_dict_filter coll item item1 f ks entries hdk hv hstep2
        have hcols : ∀ g2 ∈ gs, f.col_name ≠ g2.col_name := by
          intro g2 hg2 heq
          have hmem : g2.col_name ∈ gs.map FieldModel.col_name :=
            List.mem_map_of_mem FieldModel.col_name hg2
          rw [← heq, hfg] at hmem
          exact hnd2.1 hmem
        have := runFields_ok_preserves coll gs f.col_name hcols item1 item2 hok
        rw [this, h1]
      · have hgf : g.col_name ≠ f.col_name := by
          intro heq
          have hmem : f.col_name ∈ gs.map FieldModel.col_name :=
            List.mem_map_of_mem FieldModel.col_name hfg
          rw [← heq] at hmem
          exact hnd2.1 hmem
        have hv1 : lookupVal item1 f.col_name = some (.vdict entries) := by
          rw [fieldStep_ok_preserves coll item item1 g f.col_name hstep
            (Ne.symm hgf), hv]
        exact ih hnd2.2 hfg item1 item2 entries hv1 hok

/-! ## Claim theorems -/

/-- Claim C2: for every already-registered schema, calling `add_schema`
again with the same (case-insensitive, lowercase-normalized) name fails with
`DuplicateSchemaError`; since every rejection in `add_schema` happens before
its insert, the stored definition is untouched (an error result produces no
successor store). -/
theorem claim_C2_duplicate_schema (store store2 : List SchemaDoc)
    (req1 req2 : SchemaReq) (now1 now2 : String)
    (h1 : MasterCRUD.add_schema store req1 now1 = .ok store2)
    (hsame : pyLower req2.schema_name = pyLower req1.schema_name) :
    MasterCRUD.add_schema store2 req2 now2 = .error .duplicateSchema := by
  simp only [MasterCRUD.add_schema] at h1
  by_cases hsp : ((pyLower req1.schema_name).data.contains ' ') = true
  · rw [if_pos hsp] at h1
    cases h1
  · rw [if_neg hsp] at h1
    by_cases hdup : (findSchema store (pyLower req1.schema_name)).isSome = true
    · rw [if_pos hdup] at h1
      cases h1
    · rw [if_neg hdup] at h1
      simp only [Except.ok.injEq] at h1
      have hnone : findSchema store (pyLower req1.schema_name) = none := by
        cases hfs : findSchema store (pyLower req1.schema_name) with
        | none => rfl
        | some d =>
          rw [hfs] at hdup
          simp at hdup
      have hfound : findSchema store2 (pyLower req1.schema_name) =
          some ⟨pyLower req1.schema_name, now1, req1.fields⟩ := by
        rw [← h1, findSchema_append_of_none store _ _ hnone]
        simp [findSchema]
      simp only [MasterCRUD.add_schema, hsame]
      rw [if_neg hsp, if_pos (by rw [hfound]; rfl)]

/-- Witness for C2: registering `college` twice (second time spelled in
upper case) hits the duplicate check. -/
theorem claim_C2_witness :
    MasterCRUD.add_schema [⟨"college", "d1", []⟩] ⟨"COLLEGE", []⟩ "d2" =
      .error .duplicateSchema :=
  claim_C2_duplicate_schema [] [⟨"college", "d1", []⟩] ⟨"College", []⟩
    ⟨"COLLEGE", []⟩ "d1" "d2" rfl rfl

/-- Claim C6: for an existing schema name, `replace_schema_fields` succeeds
and the stored schema becomes exactly the one that `get_schema_field` then
returns: field list equal to the supplied list and `created_at` refreshed
to the time of the replace; for an absent name it fails with
`SchemaNotFoundError` and produces no new store. -/
theorem claim_C6_replace_roundtrip (store : List SchemaDoc) (n : String)
    (F : List FieldModel) (now : String) :
    ((findSchema store n).isSome = true →
      MasterCRUD.replace_schema_fields store n F now =
        .ok (MasterCRUD.replaceSchemaDoc store n ⟨n, now, F⟩) ∧
      MasterCRUD.get_schema_field
          (MasterCRUD.replaceSchemaDoc store n ⟨n, now, F⟩) n = .ok ⟨n, now, F⟩) ∧
    (findSchema store n = none →
      MasterCRUD.replace_schema_fields store n F now = .error .schemaNotFound) := by
  constructor
  · intro hs
    constructor
    · rw [MasterCRUD.replace_schema_fields, if_pos hs]
    · rw [MasterCRUD.get_schema_field, findSchema_replace store n ⟨n, now, F⟩ hs rfl]
  · intro hn
    rw [MasterCRUD.replace_schema_fields, if_neg (by rw [hn]; simp)]

/-- Witness for C6: replacing the fields of the stored schema `college`. -/
theorem claim_C6_witness :
    MasterCRUD.replace_schema_fields [⟨"college", "d0", []⟩] "college"
        [⟨"name", "str", some true, none, none⟩] "d9" =
      .ok [⟨"college", "d9", [⟨"name", "str", some true, none, none⟩]⟩] ∧
    MasterCRUD.get_schema_field
        [⟨"college", "d9", [⟨"name", "str", some true, none, none⟩]⟩] "college" =
      .ok ⟨"college", "d9", [⟨"name", "str", some true, none, none⟩]⟩ :=
  (claim_C6_replace_roundtrip [⟨"college", "d0", []⟩] "college"
    [⟨"name", "str", some true, none, none⟩] "d9").1 (by decide)

/-- Claim C8: the filter parser maps every well-formed
`field1:value1,field2:value2` string (fields and values free of the two
separators) to the corresponding list of (field, value) string pairs — the
conjunctive exact-match query — and any filter string containing a segment
without a colon fails with `FilterSyntaxError`. -/
theorem claim_C8_filter_parsing (ps : List (String × String)) (s : String)
    (seg : List Char) :
    (ps ≠ [] →
      (∀ p ∈ ps, ',' ∉ p.1.data ∧ ':' ∉ p.1.data ∧ ',' ∉ p.2.data ∧ ':' ∉ p.2.data) →
      parse_filter_string (renderFilter ps) = .ok ps) ∧
    (seg ∈ splitOnChar ',' s.data → ':' ∉ seg →
      parse_filter_string s = .error .filterSyntaxError) := by
  constructor
  · intro hne hsep
    have hsplit : splitOnChar ',' (renderFilter ps).data =
        ps.map (fun p => p.1.data ++ ':' :: p.2.data) := by
      have hjoin : (renderFilter ps).data =
          joinWithChar ',' (ps.map (fun p => p.1.data ++ ':' :: p.2.data)) := rfl
      rw [hjoin]
      apply splitOnChar_joinWithChar
      · intro l hl
        rcases List.mem_map.mp hl with ⟨p, hp, hpl⟩
        rcases hsep p hp with ⟨h1, _, h3, _⟩
        rw [← hpl]
        intro hmem
        rcases List.mem_append.mp hmem with hm | hm
        · exact h1 hm
        · rcases List.mem_cons.mp hm with hm2 | hm2
          · cases hm2
          · exact h3 hm2
      · intro hmap
        exact hne (List.map_eq_nil_iff.mp hmap)
    rw [parse_filter_string, hsplit]
    apply parseFilterSegments_map
    intro p hp
    rcases hsep p hp with ⟨_, h2, _, h4⟩
    exact ⟨h2, h4⟩
  · intro hm hc
    exact parseFilterSegments_error _ seg hm hc

/-- Witness for C8: `status:active,age:30` parses to the two-pair query and
the separator-free string `status` is rejected. -/
theorem claim_C8_witness :
    parse_filter_string "status:active,age:30" =
      .ok [("status", "active"), ("age", "30")] ∧
    parse_filter_string "status" = .error .filterSyntaxError := by
  constructor
  · have h := (claim_C8_filter_parsing [("status", "active"), ("age", "30")]
      "status" "status".data).1 (by decide) (by decide)
    have hr : renderFilter [("status", "active"), ("age", "30")] =
        "status:active,age:30" := by decide
    rw [hr] at h
    exact h
  · exact (claim_C8_filter_parsing [("status", "active"), ("age", "30")]
      "status" "status".data).2 (by decide) (by decide)

/-- Counterexample for C9 as stated: a schema name containing a tab — which
is whitespace — passes the space check of `add_schema` and the schema is
persisted, so not every whitespace-containing name is rejected. -/
theorem claim_C9_counterexample :
    MasterCRUD.add_schema [] ⟨"a\tb", []⟩ "01/01/2024" =
      .ok [⟨"a\tb", "01/01/2024", []⟩] := rfl

/-- Claim C9 (amended): `add_schema` checks only for the space character
(`" " in schema_name`, after lowercasing, which preserves spaces): every
request whose schema name contains a space fails with
`InvalidSchemaNameError`, before any store access, and persists nothing. -/
theorem claim_C9_space_rejected (store : List SchemaDoc) (req : SchemaReq)
    (now : String) (h : ' ' ∈ req.schema_name.data) :
    MasterCRUD.add_schema store req now = .error .invalidSchemaName := by
  have h2 : ((pyLower req.schema_name).data.contains ' ') = true := by
    have hm : ' ' ∈ (pyLower req.schema_name).data := by
      have : Char.toLower ' ' = ' ' := by decide
      exact this ▸ List.mem_map_of_mem Char.toLower h
    simpa using hm
  rw [MasterCRUD.add_schema]
  simp only [h2, if_true]

/-- Witness for the amended C9: a name with an inner space is rejected. -/
theorem claim_C9_witness :
    MasterCRUD.add_schema [] ⟨"my schema", []⟩ "d" = .error .invalidSchemaName :=
  claim_C9_space_rejected [] ⟨"my schema", []⟩ "d" (by decide)

/-- Claim C3 (amended): a single-record create is atomic — any validation
failure leaves the collection exactly as it was (the insert happens only
after the whole field loop) — while `update_schema_item` validates and
writes field by field: a violation aborts the current and all later
supplied fields without touching the collection further, but `$set` writes
already applied for earlier supplied fields persist. -/
theorem claim_C3_first_violation (fields : List FieldModel) (coll : List Doc)
    (item : List (String × Value)) (now : String) (oid : Nat) (name : String)
    (v : Value) (rest : List (String × Value)) :
    ((MasterCRUD.add_item fields coll item now).2.isSome = true →
      (MasterCRUD.add_item fields coll item now).1 = coll) ∧
    (∀ e, MasterCRUD.processUpdateField fields coll oid name v = .error e →
      MasterCRUD.update_schema_item fields coll oid ((name, v) :: rest) =
        (coll, some e)) ∧
    (MasterCRUD.processUpdateField fields coll oid name v = .ok () →
      MasterCRUD.update_schema_item fields coll oid ((name, v) :: rest) =
        MasterCRUD.update_schema_item fields (applySet coll oid name v) oid rest) := by
  refine ⟨add_item_unchanged_of_error fields coll item now, ?_, ?_⟩
  · intro e he
    simp [MasterCRUD.update_schema_item, he]
  · intro hok
    simp [MasterCRUD.update_schema_item, hok]

/-- Witness for the amended C3: a create whose only field violates
uniqueness leaves the one-document collection unchanged, and a two-field
update whose first supplied field is unknown to the schema changes
nothing. -/
theorem claim_C3_witness :
    (MasterCRUD.add_item [⟨"name", "str", some true, none, none⟩]
        [⟨0, [("name", .vstr "x")]⟩] [("name", .vstr "x")] "d").2.isSome = true ∧
    (MasterCRUD.add_item [⟨"name", "str", some true, none, none⟩]
        [⟨0, [("name", .vstr "x")]⟩] [("name", .vstr "x")] "d").1 =
      [⟨0, [("name", .vstr "x")]⟩] ∧
    MasterCRUD.update_schema_item [⟨"name", "str", some true, none, none⟩]
        [⟨0, [("name", .vstr "x")]⟩] 0 [("ghost", .vstr "y"), ("name", .vstr "z")] =
      ([⟨0, [("name", .vstr "x")]⟩], some (.fieldNotFound "ghost")) := by
  refine ⟨rfl, ?_, ?_⟩
  · exact (claim_C3_first_violation [⟨"name", "str", some true, none, none⟩]
      [⟨0, [("name", .vstr "x")]⟩] [("name", .vstr "x")] "d" 0 "ghost" (.vstr "y")
      [("name", .vstr "z")]).1 rfl
  · exact (claim_C3_first_violation [⟨"name", "str", some true, none, none⟩]
      [⟨0, [("name", .vstr "x")]⟩] [("name", .vstr "x")] "d" 0 "ghost" (.vstr "y")
      [("name", .vstr "z")]).2.1 (.fieldNotFound "ghost") rfl

/-- Counterexample for C3 as stated: updating two fields where the second
violates its allowed values raises the validation error, yet the first
field has already been written — the target document is left modified on a
validation failure, against the no-partial-write reading for updates. -/
theorem claim_C3_counterexample :
    MasterCRUD.update_schema_item
        [⟨"a", "str", none, none, none⟩, ⟨"b", "str", none, some ["X"], none⟩]
        [⟨1, [("a", .vstr "q"), ("b", .vstr "X")]⟩] 1
        [("a", .vstr "p"), ("b", .vstr "Y")] =
      ([⟨1, [("a", .vstr "p"), ("b", .vstr "X")]⟩], some (.invalidValue "b")) ∧
    [Doc.mk 1 [("a", .vstr "p"), ("b", .vstr "X")]] ≠
      [Doc.mk 1 [("a", .vstr "q"), ("b", .vstr "X")]] := by
  constructor
  · rfl
  · intro h
    simp only [List.cons.injEq, Doc.mk.injEq, Prod.mk.injEq, Value.vstr.injEq,
      and_true, true_and] at h
    exact absurd h (by decide)

/-- Claim C4, divergence of `MasterCRUD/main.py` from the element-wise
allowed-values rule: the check `item_data[col] not in field.allowed_values`
tests membership of the whole candidate value in a list of strings, so a
list value — such as `[A, B]` with allowed values `[A, B, C]` — is never a
member and every such create is rejected with `InvalidValueError`; the
`Github mowlee/19.py` variant implements the claimed element-wise rule,
accepting `[A, B]` and rejecting `[A, D]`. -/
theorem claim_C4_list_allowed_divergence :
    MasterCRUD.allowedCheck [("courses", .vlist [.vstr "A", .vstr "B"])]
        ⟨"courses", "list", none, some ["A", "B", "C"], none⟩ =
      .error (.invalidValue "courses") ∧
    (MasterCRUD.add_item [⟨"courses", "list", none, some ["A", "B", "C"], none⟩]
        [] [("courses", .vlist [.vstr "A", .vstr "B"])] "d").2 =
      some (.invalidValue "courses") ∧
    (∀ elems : List Value,
      MasterCRUD.allowedCheck [("courses", .vlist elems)]
          ⟨"courses", "list", none, some ["A", "B", "C"], none⟩ =
        .error (.invalidValue "courses")) ∧
    Mowlee.listAllowedCheck ⟨"courses", "list", none, some ["A", "B", "C"], none⟩
        (some (.vlist [.vstr "A", .vstr "B"])) = .ok () ∧
    Mowlee.listAllowedCheck ⟨"courses", "list", none, some ["A", "B", "C"], none⟩
        (some (.vlist [.vstr "A", .vstr "D"])) = .error (.invalidValue "courses") := by
  refine ⟨rfl, rfl, ?_, rfl, rfl⟩
  intro elems
  simp [MasterCRUD.allowedCheck, allowedT, lookupVal, valueInStrList, Value.beq]

/-- Counterexample for C5 as stated: a dict-kind field whose declared
`nestedKeys` mapping is empty — declared, but falsy in Python — skips the
key check entirely, so a value with the undeclared key `ssn` is accepted
and inserted instead of failing with `InvalidKeyError`. -/
theorem claim_C5_counterexample :
    MasterCRUD.add_item [⟨"contact", "dict", none, none, some []⟩] []
        [("contact", .vdict [("ssn", .vstr "1")])] "d" =
      ([⟨0, [("contact", .vdict [("ssn", .vstr "1")]), ("modified_date", .vstr "d")]⟩],
       none) := rfl

/-- Claim C5 (amended): for every dict-kind field whose declared `dict_keys`
mapping is non-empty, a create whose value for that field contains a key not
present in `dict_keys` fails with `InvalidKeyError` naming the field and the
first offending key — and the whole write aborts — while a value whose keys
are all declared (keys may be absent) passes the dict-keys check. -/
theorem claim_C5_nested_keys (fields : List FieldModel) (coll : List Doc)
    (item : List (String × Value)) (now : String) (f : FieldModel)
    (ks : List (String × String)) (entries : List (String × Value))
    (kv0 : String × Value) (htype : f.type = "dict") (hdk : f.dict_keys = some ks)
    (hks : ks ≠ []) (hlv : lookupValD item f.col_name (.vdict []) = .vdict entries) :
    (entries.find? (fun kv => !(ks.any (fun dk => dk.1 == kv.1))) = some kv0 →
      MasterCRUD.dictKeysCheck item f = .error (.invalidKey f.col_name kv0.1) ∧
      (f ∈ fields → f.col_name ≠ "modified_date" →
        ∃ e, MasterCRUD.add_item fields coll item now = (coll, some e))) ∧
    ((∀ kv ∈ entries, ks.any (fun dk => dk.1 == kv.1) = true) →
      MasterCRUD.dictKeysCheck item f = .ok ()) := by
  have hcond : (f.type == "dict" && dictKeysT (some ks)) = true := by
    rw [htype]
    simp [dictKeysT, List.isEmpty_iff, hks]
  constructor
  · intro hfind
    have herr : MasterCRUD.dictKeysCheck item f =
        .error (.invalidKey f.col_name kv0.1) := by
      rw [MasterCRUD.dictKeysCheck]
      simp only [hcond, if_true, hlv, hdk, Option.getD_some, hfind]
    refine ⟨herr, ?_⟩
    intro hf hne
    have hlv2 : lookupValD (setVal item "modified_date" (.vstr now)) f.col_name
        (.vdict []) = .vdict entries := by
      rw [lookupValD, lookupVal_setVal_ne item f.col_name "modified_date"
        (.vstr now) hne]
      exact hlv
    have herr2 : MasterCRUD.dictKeysCheck (setVal item "modified_date" (.vstr now)) f =
        .error (.invalidKey f.col_name kv0.1) := by
      rw [MasterCRUD.dictKeysCheck]
      simp only [hcond, if_true, hlv2, hdk, Option.getD_some, hfind]
    rcases @checkField_error_of_dictKeys coll _ _ _ herr2 with ⟨e2, hcf⟩
    rcases validateFields_error_of_mem hf hcf with ⟨e3, hvf⟩
    exact ⟨e3, add_item_of_validate_error hvf⟩
  · intro hall
    have hfind : entries.find? (fun kv => !(ks.any (fun dk => dk.1 == kv.1))) = none := by
      apply List.find?_eq_none.mpr
      intro kv hkv
      simp [hall kv hkv]
    rw [MasterCRUD.dictKeysCheck]
    simp only [hcond, if_true, hlv, hdk, Option.getD_some, hfind]

/-- Witness for the amended C5: with `dict_keys = [email]`, the value
`[(email, e), (ssn, 1)]` is rejected naming `ssn`, the create fails, and
the value `[(email, e)]` passes the check. -/
theorem claim_C5_witness :
    MasterCRUD.dictKeysCheck [("contact", .vdict [("email", .vstr "e"), ("ssn", .vstr "1")])]
        ⟨"contact", "dict", none, none, some [("email", "str")]⟩ =
      .error (.invalidKey "contact" "ssn") ∧
    (∃ e, MasterCRUD.add_item [⟨"contact", "dict", none, none, some [("email", "str")]⟩]
        [] [("contact", .vdict [("email", .vstr "e"), ("ssn", .vstr "1")])] "d" =
        ([], some e)) ∧
    MasterCRUD.dictKeysCheck [("contact", .vdict [("email", .vstr "e")])]
        ⟨"contact", "dict", none, none, some [("email", "str")]⟩ = .ok () := by
  have h1 := (claim_C5_nested_keys
    [⟨"contact", "dict", none, none, some [("email", "str")]⟩] []
    [("contact", .vdict [("email", .vstr "e"), ("ssn", .vstr "1")])] "d"
    ⟨"contact", "dict", none, none, some [("email", "str")]⟩
    [("email", "str")] [("email", .vstr "e"), ("ssn", .vstr "1")]
    ("ssn", .vstr "1") rfl rfl (by decide) rfl).1 rfl
  have h2 := (claim_C5_nested_keys
    [⟨"contact", "dict", none, none, some [("email", "str")]⟩] []
    [("contact", .vdict [("email", .vstr "e")])] "d"
    ⟨"contact", "dict", none, none, some [("email", "str")]⟩
    [("email", "str")] [("email", .vstr "e")]
    ("ssn", .vstr "1") rfl rfl (by decide) rfl).2 (by decide)
  exact ⟨h1.1, h1.2 (by simp) (by decide), h2⟩

/-- Claim C1: for a field declared unique, a create whose value for that
field equals the value of an existing document fails — its field check
raises `UniquenessViolationError` and the whole `add_item` aborts with some
validation error — and an update supplying such a value fails likewise
unless the matching document (the first one found) is the one being
updated, identity compared by record identifier. -/
theorem claim_C1_uniqueness (fields : List FieldModel) (coll : List Doc)
    (item : List (String × Value)) (f : FieldModel) (v : Value) (d : Doc)
    (oid : Nat) (name : String) (rest : List (String × Value)) (now : String) :
    (f ∈ fields → uniqueT f.unique = true → f.col_name ≠ "modified_date" →
      lookupVal item f.col_name = some v →
      findByField coll f.col_name v = some d →
      MasterCRUD.checkField coll (setVal item "modified_date" (.vstr now)) f =
        .error (.uniquenessViolation f.col_name) ∧
      ∃ e, MasterCRUD.add_item fields coll item now = (coll, some e)) ∧
    (fields.find? (fun g => g.col_name == name && uniqueT g.unique) = some f →
      findByField coll name v = some d →
      ((MasterCRUD.updUniqueCheck fields coll oid name v =
          .error (.uniquenessViolation name)) ↔ d.id ≠ oid) ∧
      (d.id ≠ oid →
        ∃ e, MasterCRUD.update_schema_item fields coll oid ((name, v) :: rest) =
          (coll, some e))) := by
  constructor
  · intro hf hu hne hlv hfind
    have hlv2 : lookupVal (setVal item "modified_date" (.vstr now)) f.col_name =
        some v := by
      rw [lookupVal_setVal_ne item f.col_name "modified_date" (.vstr now) hne]
      exact hlv
    have hun : MasterCRUD.uniqueCheck coll (setVal item "modified_date" (.vstr now)) f =
        .error (.uniquenessViolation f.col_name) := by
      rw [MasterCRUD.uniqueCheck]
      simp only [hu, if_true, hlv2, hfind, Option.isSome_some]
    have hcf := checkField_error_of_unique hun
    refine ⟨hcf, ?_⟩
    rcases validateFields_error_of_mem hf hcf with ⟨e2, hvf⟩
    exact ⟨e2, add_item_of_validate_error hvf⟩
  · intro hscan hfind
    have hiff : (MasterCRUD.updUniqueCheck fields coll oid name v =
        .error (.uniquenessViolation name)) ↔ d.id ≠ oid := by
      rw [MasterCRUD.updUniqueCheck]
      simp only [hscan, hfind]
      by_cases hid : d.id = oid
      · simp [hid]
      · simp [hid]
    refine ⟨hiff, ?_⟩
    intro hne2
    have hfmem := List.mem_of_find?_eq_some hscan
    have hfpred := List.find?_some hscan
    have hcol : (f.col_name == name) = true := by
      have h2 := hfpred
      simp only [Bool.and_eq_true] at h2
      exact h2.1
    have hex : MasterCRUD.updFieldExistsCheck fields name = .ok () := by
      rw [MasterCRUD.updFieldExistsCheck, if_pos]
      exact List.any_eq_true.mpr ⟨f, hfmem, hcol⟩
    have huerr : MasterCRUD.updUniqueCheck fields coll oid name v =
        .error (.uniquenessViolation name) := hiff.mpr hne2
    cases hs2 : MasterCRUD.updStrAllowedCheck fields name v with
    | error e =>
      refine ⟨e, ?_⟩
      have hp : MasterCRUD.processUpdateField fields coll oid name v = .error e := by
        simp [MasterCRUD.processUpdateField, hex, hs2, Bind.bind, Except.bind]
      simp [MasterCRUD.update_schema_item, hp]
    | ok u =>
      refine ⟨.uniquenessViolation name, ?_⟩
      have hp : MasterCRUD.processUpdateField fields coll oid name v =
          .error (.uniquenessViolation name) := by
        simp [MasterCRUD.processUpdateField, hex, hs2, huerr, Bind.bind, Except.bind]
      simp [MasterCRUD.update_schema_item, hp]

/-- Witness for C1: one unique field `name`, a stored document with value
`x` and identifier 5; a create with `name = x` fails with the uniqueness
error, and an update of document 7 to `name = x` hits the uniqueness stage
because the matching document is a different record. -/
theorem claim_C1_witness :
    MasterCRUD.checkField [⟨5, [("name", .vstr "x")]⟩]
        (setVal [("name", .vstr "x")] "modified_date" (.vstr "d"))
        ⟨"name", "str", some true, none, none⟩ =
      .error (.uniquenessViolation "name") ∧
    (∃ e, MasterCRUD.add_item [⟨"name", "str", some true, none, none⟩]
        [⟨5, [("name", .vstr "x")]⟩] [("name", .vstr "x")] "d" =
        ([⟨5, [("name", .vstr "x")]⟩], some e)) ∧
    ((MasterCRUD.updUniqueCheck [⟨"name", "str", some true, none, none⟩]
        [⟨5, [("name", .vstr "x")]⟩] 7 "name" (.vstr "x") =
        .error (.uniquenessViolation "name")) ↔ (5 : Nat) ≠ 7) ∧
    (∃ e, MasterCRUD.update_schema_item [⟨"name", "str", some true, none, none⟩]
        [⟨5, [("name", .vstr "x")]⟩] 7 [("name", .vstr "x")] =
        ([⟨5, [("name", .vstr "x")]⟩], some e)) := by
  have h := claim_C1_uniqueness [⟨"name", "str", some true, none, none⟩]
    [⟨5, [("name", .vstr "x")]⟩] [("name", .vstr "x")]
    ⟨"name", "str", some true, none, none⟩ (.vstr "x")
    ⟨5, [("name", .vstr "x")]⟩ 7 "name" [] "d"
  have hA := h.1 (by decide) (by decide) (by decide) rfl rfl
  have hB := h.2 rfl rfl
  exact ⟨hA.1, hA.2, hB.1, hB.2 (by decide)⟩

/-- Claim C7: `import_data` never aborts for a failing row — it returns
exactly the batch insert of the records of the rows whose validation
produced no error, paired with one `(raw row, errors)` entry per failing
row, in row order; and every per-row error (missing column, JSON parse
failure of a dict-kind cell, allowed-values violation, uniqueness
violation, undeclared key) names a schema field. -/
theorem claim_C7_batch_import (fields : List FieldModel) (coll : List Doc)
    (jl : String → Option Value) (now : String) (rows : List Row) :
    MasterCRUD.import_data fields coll jl now rows =
      (MasterCRUD.insertMany coll
        ((rows.filter
            (fun r => (MasterCRUD.validateRow fields coll jl r now).2.isEmpty)).map
          (fun r => (MasterCRUD.validateRow fields coll jl r now).1)),
       (rows.filter
           (fun r => !(MasterCRUD.validateRow fields coll jl r now).2.isEmpty)).map
         (fun r => (r, (MasterCRUD.validateRow fields coll jl r now).2))) ∧
    (∀ r ∈ rows, ∀ e ∈ (MasterCRUD.validateRow fields coll jl r now).2,
      RowError.field e ∈ fields.map FieldModel.col_name) := by
  constructor
  · rw [MasterCRUD.import_data, MasterCRUD.importRows, importLoop_eq]
    simp
  · intro r _ e he
    exact validateRow_field fields coll jl r now e he

/-- Witness for C7: a two-field schema (unique `name` with allowed values,
dict-kind `contact`), one stored document, and two rows: the first row
passes and is inserted, the second row fails both the uniqueness check and
the JSON parse of its dict cell and is reported with both errors, each
naming its field. -/
theorem claim_C7_witness :
    MasterCRUD.import_data
        [⟨"name", "str", some true, some ["A", "B"], none⟩,
         ⟨"contact", "dict", none, none, some [("email", "str")]⟩]
        [⟨0, [("name", .vstr "A")]⟩]
        (fun s => if s == "ok" then some (.vdict []) else none) "d"
        [[("name", "B"), ("contact", "ok")], [("name", "A"), ("contact", "bad")]] =
      ([⟨0, [("name", .vstr "A")]⟩,
        ⟨1, [("name", .vstr "B"), ("contact", .vdict []), ("modified_date", .vstr "d")]⟩],
       [([("name", "A"), ("contact", "bad")],
         [.mustBeUnique "name", .invalidJSON "contact"])]) ∧
    RowError.field (.invalidJSON "contact") ∈
      ([⟨"name", "str", some true, some ["A", "B"], none⟩,
        ⟨"contact", "dict", none, none, some [("email", "str")]⟩].map
        FieldModel.col_name) := by
  have h := claim_C7_batch_import
    [⟨"name", "str", some true, some ["A", "B"], none⟩,
     ⟨"contact", "dict", none, none, some [("email", "str")]⟩]
    [⟨0, [("name", .vstr "A")]⟩]
    (fun s => if s == "ok" then some (.vdict []) else none) "d"
    [[("name", "B"), ("contact", "ok")], [("name", "A"), ("contact", "bad")]]
  constructor
  · rw [h.1]
    rfl
  · exact h.2 [("name", "A"), ("contact", "bad")] (by simp)
      (.invalidJSON "contact") (by decide)

/-- Claim C10 (amended): in the `Sharath - GIT/Backend.py` variant, a
create stores, for every field with declared `dict_keys`, only the
key-value pairs whose keys are declared — undeclared keys are silently
dropped, never rejected (the dict-keys stage always succeeds on a dict
value, whatever its keys).  On update the filtering is driven by the loop
variable leaked from the uniqueness scan: when the updated field is itself
the first matching unique field, the update succeeds and stores its value
restricted to the declared keys of that field (otherwise the leaked variable is
the last schema field, see the counterexample). -/
theorem claim_C10_dict_filtering (fields : List FieldModel) (coll coll2 : List Doc)
    (item : List (String × Value)) (now : String) (f : FieldModel)
    (ks : List (String × String)) (entries : List (String × Value)) (oid : Nat) :
    ((fields.map FieldModel.col_name).Nodup → f ∈ fields → f.dict_keys = some ks →
      f.col_name ≠ "created_at" →
      lookupVal item f.col_name = some (.vdict entries) →
      Sharath.add_item (some fields) coll item now = .ok coll2 →
      ∃ item2, coll2 = coll ++ [⟨coll.length, item2⟩] ∧
        lookupVal item2 f.col_name =
          some (.vdict (Sharath.filterDeclared ks entries))) ∧
    (fields.find? (fun g => (lookupVal item g.col_name).isSome) = some f →
      f.dict_keys = some ks → f.allowed_values = none →
      lookupVal item f.col_name = some (.vdict entries) →
      (findById coll oid).isSome = true →
      fields.find? (fun g => g.col_name == f.col_name && uniqueT g.unique) = some f →
      findByField coll f.col_name (.vdict entries) = none →
      Sharath.update_schema_item (some fields) coll oid item =
        (applySet coll oid f.col_name (.vdict (Sharath.filterDeclared ks entries)),
         .updated f.col_name)) ∧
    (∀ (item3 : List (String × Value)) (f2 : FieldModel)
        (ks2 : List (String × String)) (entries2 : List (String × Value)),
      f2.dict_keys = some ks2 →
      lookupVal item3 f2.col_name = some (.vdict entries2) →
      Sharath.dictFilterStage item3 f2 =
        .ok (setVal item3 f2.col_name (.vdict (Sharath.filterDeclared ks2 entries2)))) := by
  refine ⟨?_, ?_, ?_⟩
  · intro hnd hf hdk hcol hv hok
    simp only [Sharath.add_item] at hok
    cases hrf : Sharath.runFields coll fields (setVal item "created_at" (.vstr now)) with
    | error e =>
      rw [hrf] at hok
      cases hok
    | ok item2 =>
      rw [hrf] at hok
      simp only [Except.ok.injEq] at hok
      refine ⟨item2, hok.symm, ?_⟩
      have hv2 : lookupVal (setVal item "created_at" (.vstr now)) f.col_name =
          some (.vdict entries) := by
        rw [lookupVal_setVal_ne item f.col_name "created_at" (.vstr now) hcol]
        exact hv
      exact runFields_dict_filter coll fields f ks hnd hf hdk
        (setVal item "created_at" (.vstr now)) item2 entries hv2 hrf
  · intro hsel hdk hall hv hex hscan hnone
    cases hfid : findById coll oid with
    | none =>
      rw [hfid] at hex
      cases hex
    | some d0 =>
      rw [Sharath.update_schema_item]
      simp only [hsel, hfid, hv, hscan, hnone, hdk, hall]
  · intro item3 f2 ks2 entries2 hdk2 hv3
    rw [Sharath.dictFilterStage]
    simp only [hdk2, hv3]

/-- Counterexample for C10 as stated: updating the non-unique dict-kind
field `contact` (declared keys `[email]`) of a two-field schema succeeds,
but the uniqueness scan runs to the end and leaks the last schema field
`z`, whose `dict_keys` is `None` — so no filtering happens and the
undeclared key `ssn` is stored verbatim. -/
theorem claim_C10_counterexample :
    Sharath.update_schema_item
        (some [⟨"contact", "dict", some false, none, some [("email", "str")]⟩,
               ⟨"z", "str", some false, none, none⟩])
        [⟨1, [("contact", .vdict []), ("z", .vstr "0")]⟩] 1
        [("contact", .vdict [("ssn", .vstr "1")])] =
      ([⟨1, [("contact", .vdict [("ssn", .vstr "1")]), ("z", .vstr "0")]⟩],
       .updated "contact") ∧
    ([("email", "str")].any (fun dk => dk.1 == "ssn")) = false := by
  exact ⟨rfl, by decide⟩

/-- Witness for the amended C10: a create filters the undeclared key `ssn`
out of the stored `contact` value, and an update of the unique dict-kind
field `contact` stores the filtered value. -/
theorem claim_C10_witness :
    (∃ item2,
      [⟨0, [("contact", .vdict [("email", .vstr "e")]), ("created_at", .vstr "d")]⟩] =
        ([] : List Doc) ++ [⟨(0 : Nat), item2⟩] ∧
      lookupVal item2 "contact" =
        some (.vdict (Sharath.filterDeclared [("email", "str")]
          [("email", .vstr "e"), ("ssn", .vstr "1")]))) ∧
    Sharath.update_schema_item
        (some [⟨"contact", "dict", some true, none, some [("email", "str")]⟩])
        [⟨1, [("contact", .vdict []), ("z", .vstr "0")]⟩] 1
        [("contact", .vdict [("email", .vstr "e"), ("ssn", .vstr "1")])] =
      (applySet [⟨1, [("contact", .vdict []), ("z", .vstr "0")]⟩] 1 "contact"
        (.vdict (Sharath.filterDeclared [("email", "str")]
          [("email", .vstr "e"), ("ssn", .vstr "1")])),
       .updated "contact") := by
  constructor
  · exact (claim_C10_dict_filtering
      [⟨"contact", "dict", some false, none, some [("email", "str")]⟩] []
      [⟨0, [("contact", .vdict [("email", .vstr "e")]), ("created_at", .vstr "d")]⟩]
      [("contact", .vdict [("email", .vstr "e"), ("ssn", .vstr "1")])] "d"
      ⟨"contact", "dict", some false, none, some [("email", "str")]⟩
      [("email", "str")] [("email", .vstr "e"), ("ssn", .vstr "1")] 0).1
      (by decide) (by decide) rfl (by decide) rfl rfl
  · exact (claim_C10_dict_filtering
      [⟨"contact", "dict", some true, none, some [("email", "str")]⟩]
      [⟨1, [("contact", .vdict []), ("z", .vstr "0")]⟩] []
      [("contact", .vdict [("email", .vstr "e"), ("ssn", .vstr "1")])] "d"
      ⟨"contact", "dict", some true, none, some [("email", "str")]⟩
      [("email", "str")] [("email", .vstr "e"), ("ssn", .vstr "1")] 1).2.1
      rfl rfl rfl rfl rfl rfl rfl
